import Mathlib

/-!
# Verification of the user-defined minibatch source (MyMultiWorkerDataSource)

Shallow embedding of the `MyMultiWorkerDataSource` class from
`notebooks/Manual/Manual_How_to_create_user_minibatch_sources.ipynb` and proofs
about its batch-production, checkpointing and ingestion behaviour.

Python strings are modelled as `List Char`; Python `str.split`, `str.strip`,
`int(...)` are re-implemented structurally below so that every definition is
executable by the kernel.  The optional label payload of a sequence is kept as
the raw token rows (the conversion of the tokens to float32 by `np.asarray`
is external to the component and none of the verified properties depend on the
numeric values, only on the row count and on equality of the stored payload).
Fallible Python operations (list indexing, dict lookup, `int()` parsing,
unpacking of `split('|', 1)`) are modelled with `Option`; the unbounded
`while` loop of `_prepare_nextbatch` is modelled with explicit fuel, `none`
meaning that the given number of iterations did not suffice (in particular,
`none` for every fuel exhibits non-termination of the loop).
-/

namespace MinibatchSource

/-! ## Python string primitives -/

/-- Whitespace test used by Python `str.strip` (the characters occurring in
the notebook's data are covered). -/
def isSpace (c : Char) : Bool := c = ' ' || c = '\t' || c = '\n' || c = '\r'

/-- Python `s.strip()`. -/
def pyStrip (s : List Char) : List Char :=
  ((s.dropWhile isSpace).reverse.dropWhile isSpace).reverse

/-- Python `s.split(sep)` for a one-character separator: splits at every
occurrence, keeping empty parts, and returns at least one part. -/
def splitOnChar (sep : Char) : List Char → List (List Char)
  | [] => [[]]
  | c :: cs =>
    if c = sep then [] :: splitOnChar sep cs
    else
      match splitOnChar sep cs with
      | [] => [[c]]
      | p :: ps => (c :: p) :: ps

/-- Python `s.split(sep, 1)` followed by unpacking into two variables:
`none` when the separator does not occur (Python raises `ValueError`). -/
def splitOnce (sep : Char) : List Char → Option (List Char × List Char)
  | [] => none
  | c :: cs =>
    if c = sep then some ([], cs)
    else (splitOnce sep cs).map (fun p => (c :: p.1, p.2))

/-- Digit value of a character, `none` for a non-digit. -/
def digitVal (c : Char) : Option Nat :=
  if '0' ≤ c ∧ c ≤ '9' then some (c.toNat - '0'.toNat) else none

/-- Python `int(s)` restricted to the non-negative integers used as sequence
identifiers and vocabulary indices in the ingestion format (`none` models
`ValueError`). -/
def pyInt (s : List Char) : Option Nat :=
  match s with
  | [] => none
  | _ => s.foldlM (fun acc c => (digitVal c).map (fun d => acc * 10 + d)) 0

/-! ## Data model -/

/-- One entry of `self.data`: the record of one sequence.  `features` is the
list of sparse vocabulary indices appended line by line; `labels` is `none`
when the dict has no `'labels'` key, and otherwise holds the rows of the
stored array (`np.asarray([tokens])` stores exactly one row of tokens). -/
structure SeqRecord where
  features : List Nat
  labels : Option (List (List (List Char)))
deriving DecidableEq

/-- Embeds `StreamInformation(name, id, storage_format, dtype, shape)` with the
element type kept as a tag and the one-dimensional shape as its extent. -/
structure StreamInformation where
  name : String
  id : Nat
  storage : String
  dtype : String
  shape : Nat
deriving DecidableEq

/-- The state of a `MyMultiWorkerDataSource` instance after construction.
`data` is the insertion-ordered dict `self.data`, `sequences` is
`sorted(self.data)` and `next_seq_idx` is the Cursor. -/
structure Source where
  f_dim : Nat
  l_dim : Nat
  data : List (Nat × SeqRecord)
  fsi : StreamInformation
  lsi : StreamInformation
  sequences : List Nat
  next_seq_idx : Nat
deriving DecidableEq

/-- Python dict read `d[k]`, `none` modelling `KeyError`. -/
def dictLookup (d : List (Nat × SeqRecord)) (k : Nat) : Option SeqRecord :=
  match d with
  | [] => none
  | (k', v) :: rest => if k' = k then some v else dictLookup rest k

/-- In-place mutation `d[k]['features'].append(v)` (keys are unique, so the
map touches exactly the addressed record). -/
def dictAppendFeature (d : List (Nat × SeqRecord)) (k : Nat) (v : Nat) :
    List (Nat × SeqRecord) :=
  d.map (fun p => if p.1 = k then (p.1, { p.2 with features := p.2.features ++ [v] }) else p)

/-- In-place mutation `d[k]['labels'] = rows`. -/
def dictSetLabels (d : List (Nat × SeqRecord)) (k : Nat)
    (rows : List (List (List Char))) : List (Nat × SeqRecord) :=
  d.map (fun p => if p.1 = k then (p.1, { p.2 with labels := some rows }) else p)

/-- Insert into a list sorted ascending. -/
def insertSorted (x : Nat) : List Nat → List Nat
  | [] => [x]
  | y :: ys => if x ≤ y then x :: y :: ys else y :: insertSorted x ys

/-- Python `sorted(...)` over the iterated dict keys. -/
def sortKeys : List Nat → List Nat
  | [] => []
  | x :: xs => insertSorted x (sortKeys xs)

/-! ## Ingestion (`_prepare_data`) -/

/-- The body of the `for line in sample_data.split('\n')` loop of
`_prepare_data`, acting on the dict accumulated so far; `none` is a parse
failure (fatal to construction). -/
def parseLine (d : List (Nat × SeqRecord)) (line : List Char) :
    Option (List (Nat × SeqRecord)) :=
  let line := pyStrip line
  if line = [] then some d
  else
    match splitOnce '|' line with
    | none => none
    | some (sidPart, rest) =>
      let fields := splitOnChar '|' rest
      match pyInt (pyStrip sidPart) with
      | none => none
      | some seq_id =>
        let d := if (dictLookup d seq_id).isSome then d
                 else d ++ [(seq_id, { features := [], labels := none })]
        match (splitOnChar ' ' (fields.headD [])).get? 1 with
        | none => none
        | some ftok =>
          match pyInt ((splitOnChar ':' ftok).headD []) with
          | none => none
          | some vocab_idx =>
            let d := dictAppendFeature d seq_id vocab_idx
            if fields.length = 2 then
              match fields.get? 1 with
              | none => none
              | some lf => some (dictSetLabels d seq_id [(splitOnChar ' ' lf).drop 1])
            else some d

/-- The method `_prepare_data`: parse the text into the sequence dict. -/
def prepare_data (text : List Char) : Option (List (Nat × SeqRecord)) :=
  (splitOnChar '\n' text).foldlM parseLine []

/-- The constructor `MyMultiWorkerDataSource.__init__(f_dim, l_dim)` acting on
an ingestion text; `none` models a construction failure (`IngestionError`). -/
def mkSource (f_dim l_dim : Nat) (text : List Char) : Option Source :=
  match prepare_data text with
  | none => none
  | some data =>
    some { f_dim := f_dim
           l_dim := l_dim
           data := data
           fsi := { name := "features", id := 0, storage := "sparse",
                    dtype := "float32", shape := f_dim }
           lsi := { name := "labels", id := 1, storage := "dense",
                    dtype := "float32", shape := l_dim }
           sequences := sortKeys (data.map Prod.fst)
           next_seq_idx := 0 }

/-! ## Batch production (`_prepare_nextbatch` / `next_minibatch`) -/

/-- The selection `self.sequences[self.sequences[self.next_seq_idx]]` on
line 307 of the notebook: a double indexing into the sorted identifier list;
`none` models `IndexError` in either indexing. -/
def lookupSeqId (seqs : List Nat) (idx : Nat) : Option Nat :=
  match seqs.get? idx with
  | none => none
  | some j => seqs.get? j

/-- Result of one `_prepare_nextbatch` call: the returned tuple, or the
Python exception that escaped the loop. -/
inductive BatchOutcome where
  | ok (features : List (List Nat)) (f_sample_count : Nat)
       (labels : List (List (List (List Char)))) (l_sample_count : Nat)
       (sweep_end : Bool)
  | indexError
  | keyError
deriving DecidableEq

/-- The `while max(f_sample_count, l_sample_count) < num_samples` loop of
`_prepare_nextbatch`, with explicit fuel.  The pair returned with the outcome
is the value of `self.next_seq_idx` when the loop exits or the exception is
raised; `none` means the fuel did not suffice. -/
def prepareLoop (data : List (Nat × SeqRecord)) (seqs : List Nat)
    (num_samples workers rank : Nat)
    (features : List (List Nat)) (labels : List (List (List (List Char))))
    (f_cnt l_cnt : Nat) (sweep_end : Bool) (idx : Nat) :
    Nat → Option (BatchOutcome × Nat)
  | 0 => none
  | fuel + 1 =>
    if max f_cnt l_cnt < num_samples then
      let sweep_end := if idx = seqs.length then true else sweep_end
      let idx := if idx = seqs.length then 0 else idx
      match lookupSeqId seqs idx with
      | none => some (.indexError, idx)
      | some seq_id =>
        if seq_id % workers ≠ rank then
          prepareLoop data seqs num_samples workers rank
            features labels f_cnt l_cnt sweep_end idx fuel
        else
          match dictLookup data seq_id with
          | none => some (.keyError, idx)
          | some rec =>
            match rec.labels with
            | none => some (.keyError, idx)
            | some label_rows =>
              if (features ≠ [] ∨ labels ≠ []) ∧
                  max (f_cnt + rec.features.length) (l_cnt + label_rows.length)
                    > num_samples then
                some (.ok features f_cnt labels l_cnt sweep_end, idx)
              else
                prepareLoop data seqs num_samples workers rank
                  (features ++ [rec.features]) (labels ++ [label_rows])
                  (f_cnt + rec.features.length) (l_cnt + label_rows.length)
                  sweep_end (idx + 1) fuel
    else
      some (.ok features f_cnt labels l_cnt sweep_end, idx)

/-- The method `_prepare_nextbatch(num_samples, number_of_workers, worker_rank)`:
runs the loop from the instance state and threads the state; the returned
`Source` differs from the input only in `next_seq_idx`. -/
def prepare_nextbatch (st : Source) (num_samples workers rank fuel : Nat) :
    Option (BatchOutcome × Source) :=
  match prepareLoop st.data st.sequences num_samples workers rank
      [] [] 0 0 false st.next_seq_idx fuel with
  | none => none
  | some (out, idx) => some (out, { st with next_seq_idx := idx })

/-- One `MinibatchData(value, num_sequences, num_samples, sweep_end)` entry,
with the device-resident payload kept as the Python lists it is built from. -/
structure MinibatchDataF where
  data : List (List Nat)
  num_sequences : Nat
  num_samples : Nat
  sweep_end : Bool
deriving DecidableEq

/-- The labels-stream `MinibatchData` entry. -/
structure MinibatchDataL where
  data : List (List (List (List Char)))
  num_sequences : Nat
  num_samples : Nat
  sweep_end : Bool
deriving DecidableEq

/-- The dict `{self.fsi: MinibatchData(...), self.lsi: MinibatchData(...)}`
returned by `next_minibatch`. -/
structure MinibatchResult where
  fsi : StreamInformation
  features : MinibatchDataF
  lsi : StreamInformation
  labels : MinibatchDataL
deriving DecidableEq

/-- Outcome of a `next_minibatch` call: the result dict or the exception that
propagated out of `_prepare_nextbatch`. -/
inductive MBResult where
  | ok (r : MinibatchResult)
  | indexError
  | keyError
deriving DecidableEq

/-- The method `next_minibatch(num_samples, number_of_workers, worker_rank, device)`:
the device placement performed by `C.Value.one_hot` / `C.Value` is external
and value-preserving for the payload, so the payload is kept as the lists
passed to it.  `num_seq = len(features)` is used for both streams, exactly as
in the source. -/
def next_minibatch (st : Source) (num_samples workers rank fuel : Nat) :
    Option (MBResult × Source) :=
  match prepare_nextbatch st num_samples workers rank fuel with
  | none => none
  | some (.indexError, st') => some (.indexError, st')
  | some (.keyError, st') => some (.keyError, st')
  | some (.ok f fc l lc sweep, st') =>
    some (.ok { fsi := st.fsi
                features := { data := f, num_sequences := f.length,
                              num_samples := fc, sweep_end := sweep }
                lsi := st.lsi
                labels := { data := l, num_sequences := f.length,
                            num_samples := lc, sweep_end := sweep } }, st')

/-! ## Checkpointing -/

/-- The checkpoint dict `{'next_seq_idx': ...}`. -/
structure Checkpoint where
  next_seq_idx : Nat
deriving DecidableEq

/-- The method `get_checkpoint_state()`. -/
def get_checkpoint_state (st : Source) : Checkpoint :=
  { next_seq_idx := st.next_seq_idx }

/-- The method `restore_from_checkpoint(state)`: unconditionally assigns
`self.next_seq_idx = state['next_seq_idx']`. -/
def restore_from_checkpoint (st : Source) (state : Checkpoint) : Source :=
  { st with next_seq_idx := state.next_seq_idx }

/-! ## The notebook's sample data -/

/-- The raw string `sample_data` of the notebook (cell 2), spacing preserved. -/
def sample_data : List Char :=
  ("0      |x 560:1        |y 1 0 0 0 0\n" ++
   "0   |x 0:1\n" ++
   "0   |x 0:1\n" ++
   "1   |x 560:1        |y 0 1 0 0 0\n" ++
   "1   |x 0:1\n" ++
   "1   |x 0:1\n" ++
   "1   |x 424:1\n" ++
   "2   |x 160:1        |y 0 0 1 0 0\n" ++
   "2   |x 5:1\n" ++
   "2   |x 6:1\n" ++
   "3   |x 460:1        |y 0 0 0 1 0\n" ++
   "3   |x 3:1\n" ++
   "3   |x 3:1\n" ++
   "3   |x 425:1\n").data

/-- One label row of the sample data as stored by `_prepare_data`. -/
def oneHotRow (i : Nat) : List (List Char) :=
  (List.range 5).map (fun j => if j = i then ['1'] else ['0'])

/-- The instance `MyMultiWorkerDataSource(input_dim, num_output_classes)` of
the notebook (`input_dim = 1000`, `num_output_classes = 5`), written out; the
theorem `sample_parse` below checks it against the constructor. -/
def sampleSource : Source :=
  { f_dim := 1000
    l_dim := 5
    data := [(0, { features := [560, 0, 0], labels := some [oneHotRow 0] }),
             (1, { features := [560, 0, 0, 424], labels := some [oneHotRow 1] }),
             (2, { features := [160, 5, 6], labels := some [oneHotRow 2] }),
             (3, { features := [460, 3, 3, 425], labels := some [oneHotRow 3] })]
    fsi := { name := "features", id := 0, storage := "sparse",
             dtype := "float32", shape := 1000 }
    lsi := { name := "labels", id := 1, storage := "dense",
             dtype := "float32", shape := 5 }
    sequences := [0, 1, 2, 3]
    next_seq_idx := 0 }

/-! ## Specification apparatus for the sweep-coverage property -/

/-- The feature list of sequence `i` of the sample data (the payload by which
a returned sequence can be identified: the four lists are pairwise distinct). -/
def featOf (i : Nat) : List Nat :=
  [[560, 0, 0], [560, 0, 0, 424], [160, 5, 6], [460, 3, 3, 425]].getD i []

/-- The feature payloads of `k` consecutive sequences of the sample data read
cyclically starting from sorted position `c`. -/
def cycTrace : Nat → Nat → List (List Nat)
  | _, 0 => []
  | c, k + 1 => featOf (c % 4) :: cycTrace (c + 1) k

/-- Repeatedly call `next_minibatch` (the spec's "repeatedly calling
produce_batch"), concatenating the feature payloads of the returned batches,
up to and including the first call whose sweep-boundary flag is true; `none`
when a call fails, exhausts its loop fuel, or the flag is not observed within
the given number of calls. -/
def runUntilSweep (st : Source) (n workers rank loopFuel : Nat) :
    Nat → Option (List (List Nat))
  | 0 => none
  | calls + 1 =>
    match next_minibatch st n workers rank loopFuel with
    | some (.ok r, st') =>
      if r.features.sweep_end then some r.features.data
      else
        match runUntilSweep st' n workers rank loopFuel calls with
        | some rest => some (r.features.data ++ rest)
        | none => none
    | _ => none

/-! ## A valid ingestion text with a label-less sequence -/

/-- An ingestion text in the notebook's format in which sequence 1 has no
label record at all (the format marks the label field as optional). -/
def noLabelText : List Char :=
  ("0 |x 1:1 |y 1\n" ++
   "1 |x 2:1\n").data

/-- The source built from `noLabelText` (checked against the constructor by
the counterexample theorem): sequence 1 carries no `'labels'` key. -/
def noLabelSource : Source :=
  { f_dim := 10
    l_dim := 1
    data := [(0, { features := [1], labels := some [[['1']]] }),
             (1, { features := [2], labels := none })]
    fsi := { name := "features", id := 0, storage := "sparse",
             dtype := "float32", shape := 10 }
    lsi := { name := "labels", id := 1, storage := "dense",
             dtype := "float32", shape := 1 }
    sequences := [0, 1]
    next_seq_idx := 0 }

/-! ## Basic facts and loop-step lemmas -/

/-- The constructor on the notebook's sample data yields `sampleSource`. -/
theorem sample_parse : mkSource 1000 5 sample_data = some sampleSource := by
  decide

/-- If the loop is entered (the accumulated counts are below the request),
the cursor is inside the list, and the selected sequence does not belong to
this worker, the iteration changes nothing at all: it recurses with the same
accumulators and the same cursor (the `continue` on line 314 skips the
`self.next_seq_idx += 1` on line 327). -/
theorem prepareLoop_skip_step (data : List (Nat × SeqRecord)) (seqs : List Nat)
    (n w r : Nat) (feats : List (List Nat)) (labs : List (List (List (List Char))))
    (f l : Nat) (sw : Bool) (idx fuel sid : Nat)
    (hmax : max f l < n) (hidx : idx ≠ seqs.length)
    (hlook : lookupSeqId seqs idx = some sid) (hskip : sid % w ≠ r) :
    prepareLoop data seqs n w r feats labs f l sw idx (fuel + 1)
      = prepareLoop data seqs n w r feats labs f l sw idx fuel := by
  simp only [prepareLoop, if_pos hmax, if_neg hidx, hlook, if_pos hskip]

/-- If the selected sequence belongs to this worker, the batch is non-empty,
and admitting the sequence would push either accumulated count above the
request, the loop breaks: the batch is returned as is and the cursor is not
advanced past the offending sequence. -/
theorem prepareLoop_break_step (data : List (Nat × SeqRecord)) (seqs : List Nat)
    (n w r : Nat) (feats : List (List Nat)) (labs : List (List (List (List Char))))
    (f l : Nat) (sw : Bool) (idx fuel sid : Nat) (rec : SeqRecord)
    (lrows : List (List (List Char)))
    (hmax : max f l < n) (hidx : idx ≠ seqs.length)
    (hlook : lookupSeqId seqs idx = some sid) (helig : sid % w = r)
    (hdict : dictLookup data sid = some rec) (hlab : rec.labels = some lrows)
    (hne : feats ≠ [] ∨ labs ≠ [])
    (hover : max (f + rec.features.length) (l + lrows.length) > n) :
    prepareLoop data seqs n w r feats labs f l sw idx (fuel + 1)
      = some (.ok feats f labs l sw, idx) := by
  simp only [prepareLoop, if_pos hmax, if_neg hidx, hlook, helig, ne_eq,
    not_true_eq_false, if_false, hdict, hlab, if_pos (And.intro hne hover)]

/-- If the selected sequence belongs to this worker and the batch does not
break on it, the iteration consumes it: its feature list and its label rows
are appended, the two sample counts are accumulated independently (features
by the number of feature entries, labels by the number of label rows), and
the cursor advances by one. -/
theorem prepareLoop_consume_step (data : List (Nat × SeqRecord)) (seqs : List Nat)
    (n w r : Nat) (feats : List (List Nat)) (labs : List (List (List (List Char))))
    (f l : Nat) (sw : Bool) (idx fuel sid : Nat) (rec : SeqRecord)
    (lrows : List (List (List Char)))
    (hmax : max f l < n) (hidx : idx ≠ seqs.length)
    (hlook : lookupSeqId seqs idx = some sid) (helig : sid % w = r)
    (hdict : dictLookup data sid = some rec) (hlab : rec.labels = some lrows)
    (hnb : ¬((feats ≠ [] ∨ labs ≠ []) ∧
             max (f + rec.features.length) (l + lrows.length) > n)) :
    prepareLoop data seqs n w r feats labs f l sw idx (fuel + 1)
      = prepareLoop data seqs n w r (feats ++ [rec.features]) (labs ++ [lrows])
          (f + rec.features.length) (l + lrows.length) sw (idx + 1) fuel := by
  simp only [prepareLoop, if_pos hmax, if_neg hidx, hlook, helig, ne_eq,
    not_true_eq_false, if_false, hdict, hlab, if_neg hnb]

/-- If the selected sequence belongs to this worker but its record has no
`'labels'` key, the read `self.data[seq_id]['labels']` on line 316 raises
`KeyError` with the cursor where it stood. -/
theorem prepareLoop_keyerror_step (data : List (Nat × SeqRecord)) (seqs : List Nat)
    (n w r : Nat) (feats : List (List Nat)) (labs : List (List (List (List Char))))
    (f l : Nat) (sw : Bool) (idx fuel sid : Nat) (rec : SeqRecord)
    (hmax : max f l < n) (hidx : idx ≠ seqs.length)
    (hlook : lookupSeqId seqs idx = some sid) (helig : sid % w = r)
    (hdict : dictLookup data sid = some rec) (hlab : rec.labels = none) :
    prepareLoop data seqs n w r feats labs f l sw idx (fuel + 1)
      = some (.keyError, idx) := by
  simp only [prepareLoop, if_pos hmax, if_neg hidx, hlook, helig, ne_eq,
    not_true_eq_false, if_false, hdict, hlab]

/-- Reading the cyclic trace only depends on the start position modulo the
sweep length. -/
theorem cycTrace_congr : ∀ (k c c' : Nat), c % 4 = c' % 4 →
    cycTrace c k = cycTrace c' k := by
  intro k
  induction k with
  | zero => intro c c' _; rfl
  | succ k ih =>
    intro c c' h
    simp only [cycTrace]
    rw [h, ih (c + 1) (c' + 1) (by omega)]

/-- Concatenating two consecutive cyclic traces gives one cyclic trace. -/
theorem cycTrace_append : ∀ (k k' c : Nat),
    cycTrace c k ++ cycTrace (c + k) k' = cycTrace c (k + k') := by
  intro k
  induction k with
  | zero => intro k' c; simp [cycTrace]
  | succ k ih =>
    intro k' c
    have h1 : cycTrace c (k + 1) = featOf (c % 4) :: cycTrace (c + 1) k := rfl
    have h2 : cycTrace c (k + 1 + k') = featOf (c % 4) :: cycTrace (c + 1) (k + k') := by
      have : k + 1 + k' = (k + k') + 1 := by omega
      rw [this]; rfl
    rw [h1, h2, List.cons_append]
    have : c + (k + 1) = (c + 1) + k := by omega
    rw [this, ih k' (c + 1)]

/-- When the cursor stands at the end of the (non-empty) identifier list and
the loop is entered, the iteration sets the sweep flag and wraps the cursor
to 0, and then proceeds exactly as an iteration entered at cursor 0 with the
flag already set. -/
theorem prepareLoop_wrap_step (data : List (Nat × SeqRecord)) (seqs : List Nat)
    (n w r : Nat) (feats : List (List Nat)) (labs : List (List (List (List Char))))
    (f l : Nat) (sw : Bool) (fuel : Nat)
    (hmax : max f l < n) (hne : seqs.length ≠ 0) :
    prepareLoop data seqs n w r feats labs f l sw seqs.length (fuel + 1)
      = prepareLoop data seqs n w r feats labs f l true 0 (fuel + 1) := by
  simp only [prepareLoop, if_pos hmax, if_neg (Ne.symm hne),
    eq_self_iff_true, if_true]

/-- Trace form of the batch loop on the sample data with a single worker:
whenever the loop returns a batch, the batch consists of `k` consecutive
sequences read cyclically from the start cursor, the final cursor continues
the cyclic walk, the sweep flag is set only if the walk has touched the end
of the list, a clear flag means the walk was the plain segment `c..c+k ≤ 4`,
and an empty walk can only happen when the batch was already non-empty or
the request was already met. -/
theorem loopTrace (n : Nat) :
    ∀ (fuel c : Nat) (feats : List (List Nat))
      (labs : List (List (List (List Char)))) (f l : Nat) (sw : Bool),
      c ≤ 4 →
      prepareLoop sampleSource.data sampleSource.sequences n 1 0
          feats labs f l sw c fuel = none ∨
      ∃ k fc lbs lc flag c',
        prepareLoop sampleSource.data sampleSource.sequences n 1 0
            feats labs f l sw c fuel
          = some (.ok (feats ++ cycTrace c k) fc lbs lc flag, c') ∧
        c' ≤ 4 ∧ c' % 4 = (c + k) % 4 ∧
        (flag = true → sw = true ∨ 4 ≤ c + k) ∧
        (flag = false → sw = false ∧ c' = c + k) ∧
        (k = 0 → feats ≠ [] ∨ labs ≠ [] ∨ n ≤ max f l) := by
  intro fuel
  induction fuel with
  | zero =>
    intro c feats labs f l sw _
    exact Or.inl rfl
  | succ fuel ih =>
    intro c feats labs f l sw hc
    by_cases hmax : max f l < n
    · interval_cases c
      case _ =>
        by_cases hb : (feats ≠ [] ∨ labs ≠ []) ∧ max (f + 3) (l + 1) > n
        · rw [prepareLoop_break_step sampleSource.data sampleSource.sequences
            n 1 0 feats labs f l sw 0 fuel 0
            { features := [560, 0, 0], labels := some [oneHotRow 0] } [oneHotRow 0]
            hmax (by decide) (by decide) (by decide) (by decide) rfl hb.1 hb.2]
          refine Or.inr ⟨0, f, labs, l, sw, 0, by simp [cycTrace], by omega, rfl,
            fun h => Or.inl h, fun h => ⟨h, by omega⟩, fun _ => hb.1.elim Or.inl (fun h => Or.inr (Or.inl h))⟩
        · have hstep : prepareLoop sampleSource.data sampleSource.sequences n 1 0
                feats labs f l sw 0 (fuel + 1)
              = prepareLoop sampleSource.data sampleSource.sequences n 1 0
                (feats ++ [[560, 0, 0]]) (labs ++ [[oneHotRow 0]])
                (f + 3) (l + 1) sw 1 fuel :=
            prepareLoop_consume_step sampleSource.data sampleSource.sequences
              n 1 0 feats labs f l sw 0 fuel 0
              { features := [560, 0, 0], labels := some [oneHotRow 0] } [oneHotRow 0]
              hmax (by decide) (by decide) (by decide) (by decide) rfl hb
          rw [hstep]
          rcases ih 1 (feats ++ [[560, 0, 0]]) (labs ++ [[oneHotRow 0]])
              (f + 3) (l + 1) sw (by omega) with h | ⟨k, fc, lbs, lc, flag, c',
                heq, hc', hmod, hft, hff, _⟩
          · exact Or.inl h
          · refine Or.inr ⟨k + 1, fc, lbs, lc, flag, c', ?_, hc', by omega, ?_, ?_,
              by omega⟩
            · rw [heq]
              simp [cycTrace, featOf, List.append_assoc]
            · intro h
              rcases hft h with h' | h'
              · exact Or.inl h'
              · exact Or.inr (by omega)
            · intro h
              obtain ⟨h1, h2⟩ := hff h
              exact ⟨h1, by omega⟩
      case _ =>
        by_cases hb : (feats ≠ [] ∨ labs ≠ []) ∧ max (f + 4) (l + 1) > n
        · rw [prepareLoop_break_step sampleSource.data sampleSource.sequences
            n 1 0 feats labs f l sw 1 fuel 1
            { features := [560, 0, 0, 424], labels := some [oneHotRow 1] } [oneHotRow 1]
            hmax (by decide) (by decide) (by decide) (by decide) rfl hb.1 hb.2]
          refine Or.inr ⟨0, f, labs, l, sw, 1, by simp [cycTrace], by omega, rfl,
            fun h => Or.inl h, fun h => ⟨h, by omega⟩, fun _ => hb.1.elim Or.inl (fun h => Or.inr (Or.inl h))⟩
        · have hstep : prepareLoop sampleSource.data sampleSource.sequences n 1 0
                feats labs f l sw 1 (fuel + 1)
              = prepareLoop sampleSource.data sampleSource.sequences n 1 0
                (feats ++ [[560, 0, 0, 424]]) (labs ++ [[oneHotRow 1]])
                (f + 4) (l + 1) sw 2 fuel :=
            prepareLoop_consume_step sampleSource.data sampleSource.sequences
              n 1 0 feats labs f l sw 1 fuel 1
              { features := [560, 0, 0, 424], labels := some [oneHotRow 1] } [oneHotRow 1]
              hmax (by decide) (by decide) (by decide) (by decide) rfl hb
          rw [hstep]
          rcases ih 2 (feats ++ [[560, 0, 0, 424]]) (labs ++ [[oneHotRow 1]])
              (f + 4) (l + 1) sw (by omega) with h | ⟨k, fc, lbs, lc, flag, c',
                heq, hc', hmod, hft, hff, _⟩
          · exact Or.inl h
          · refine Or.inr ⟨k + 1, fc, lbs, lc, flag, c', ?_, hc', by omega, ?_, ?_,
              by omega⟩
            · rw [heq]
              simp [cycTrace, featOf, List.append_assoc]
            · intro h
              rcases hft h with h' | h'
              · exact Or.inl h'
              · exact Or.inr (by omega)
            · intro h
              obtain ⟨h1, h2⟩ := hff h
              exact ⟨h1, by omega⟩
      case _ =>
        by_cases hb : (feats ≠ [] ∨ labs ≠ []) ∧ max (f + 3) (l + 1) > n
        · rw [prepareLoop_break_step sampleSource.data sampleSource.sequences
            n 1 0 feats labs f l sw 2 fuel 2
            { features := [160, 5, 6], labels := some [oneHotRow 2] } [oneHotRow 2]
            hmax (by decide) (by decide) (by decide) (by decide) rfl hb.1 hb.2]
          refine Or.inr ⟨0, f, labs, l, sw, 2, by simp [cycTrace], by omega, rfl,
            fun h => Or.inl h, fun h => ⟨h, by omega⟩, fun _ => hb.1.elim Or.inl (fun h => Or.inr (Or.inl h))⟩
        · have hstep : prepareLoop sampleSource.data sampleSource.sequences n 1 0
                feats labs f l sw 2 (fuel + 1)
              = prepareLoop sampleSource.data sampleSource.sequences n 1 0
                (feats ++ [[160, 5, 6]]) (labs ++ [[oneHotRow 2]])
                (f + 3) (l + 1) sw 3 fuel :=
            prepareLoop_consume_step sampleSource.data sampleSource.sequences
              n 1 0 feats labs f l sw 2 fuel 2
              { features := [160, 5, 6], labels := some [oneHotRow 2] } [oneHotRow 2]
              hmax (by decide) (by decide) (by decide) (by decide) rfl hb
          rw [hstep]
          rcases ih 3 (feats ++ [[160, 5, 6]]) (labs ++ [[oneHotRow 2]])
              (f + 3) (l + 1) sw (by omega) with h | ⟨k, fc, lbs, lc, flag, c',
                heq, hc', hmod, hft, hff, _⟩
          · exact Or.inl h
          · refine Or.inr ⟨k + 1, fc, lbs, lc, flag, c', ?_, hc', by omega, ?_, ?_,
              by omega⟩
            · rw [heq]
              simp [cycTrace, featOf, List.append_assoc]
            · intro h
              rcases hft h with h' | h'
              · exact Or.inl h'
              · exact Or.inr (by omega)
            · intro h
              obtain ⟨h1, h2⟩ := hff h
              exact ⟨h1, by omega⟩
      case _ =>
        by_cases hb : (feats ≠ [] ∨ labs ≠ []) ∧ max (f + 4) (l + 1) > n
        · rw [prepareLoop_break_step sampleSource.data sampleSource.sequences
            n 1 0 feats labs f l sw 3 fuel 3
            { features := [460, 3, 3, 425], labels := some [oneHotRow 3] } [oneHotRow 3]
            hmax (by decide) (by decide) (by decide) (by decide) rfl hb.1 hb.2]
          refine Or.inr ⟨0, f, labs, l, sw, 3, by simp [cycTrace], by omega, rfl,
            fun h => Or.inl h, fun h => ⟨h, by omega⟩, fun _ => hb.1.elim Or.inl (fun h => Or.inr (Or.inl h))⟩
        · have hstep : prepareLoop sampleSource.data sampleSource.sequences n 1 0
                feats labs f l sw 3 (fuel + 1)
              = prepareLoop sampleSource.data sampleSource.sequences n 1 0
                (feats ++ [[460, 3, 3, 425]]) (labs ++ [[oneHotRow 3]])
                (f + 4) (l + 1) sw 4 fuel :=
            prepareLoop_consume_step sampleSource.data sampleSource.sequences
              n 1 0 feats labs f l sw 3 fuel 3
              { features := [460, 3, 3, 425], labels := some [oneHotRow 3] } [oneHotRow 3]
              hmax (by decide) (by decide) (by decide) (by decide) rfl hb
          rw [hstep]
          rcases ih 4 (feats ++ [[460, 3, 3, 425]]) (labs ++ [[oneHotRow 3]])
              (f + 4) (l + 1) sw (by omega) with h | ⟨k, fc, lbs, lc, flag, c',
                heq, hc', hmod, hft, hff, _⟩
          · exact Or.inl h
          · refine Or.inr ⟨k + 1, fc, lbs, lc, flag, c', ?_, hc', by omega, ?_, ?_,
              by omega⟩
            · rw [heq]
              simp [cycTrace, featOf, List.append_assoc]
            · intro h
              rcases hft h with h' | h'
              · exact Or.inl h'
              · exact Or.inr (by omega)
            · intro h
              obtain ⟨h1, h2⟩ := hff h
              exact ⟨h1, by omega⟩
      case _ =>
        have hwrap : prepareLoop sampleSource.data sampleSource.sequences n 1 0
              feats labs f l sw 4 (fuel + 1)
            = prepareLoop sampleSource.data sampleSource.sequences n 1 0
              feats labs f l true 0 (fuel + 1) :=
          prepareLoop_wrap_step sampleSource.data sampleSource.sequences
            n 1 0 feats labs f l sw fuel hmax (by decide)
        rw [hwrap]
        by_cases hb : (feats ≠ [] ∨ labs ≠ []) ∧ max (f + 3) (l + 1) > n
        · rw [prepareLoop_break_step sampleSource.data sampleSource.sequences
            n 1 0 feats labs f l true 0 fuel 0
            { features := [560, 0, 0], labels := some [oneHotRow 0] } [oneHotRow 0]
            hmax (by decide) (by decide) (by decide) (by decide) rfl hb.1 hb.2]
          refine Or.inr ⟨0, f, labs, l, true, 0, by simp [cycTrace], by omega,
            by omega, fun _ => Or.inr (by omega), by simp, fun _ => hb.1.elim Or.inl (fun h => Or.inr (Or.inl h))⟩
        · have hstep : prepareLoop sampleSource.data sampleSource.sequences n 1 0
                feats labs f l true 0 (fuel + 1)
              = prepareLoop sampleSource.data sampleSource.sequences n 1 0
                (feats ++ [[560, 0, 0]]) (labs ++ [[oneHotRow 0]])
                (f + 3) (l + 1) true 1 fuel :=
            prepareLoop_consume_step sampleSource.data sampleSource.sequences
              n 1 0 feats labs f l true 0 fuel 0
              { features := [560, 0, 0], labels := some [oneHotRow 0] } [oneHotRow 0]
              hmax (by decide) (by decide) (by decide) (by decide) rfl hb
          rw [hstep]
          rcases ih 1 (feats ++ [[560, 0, 0]]) (labs ++ [[oneHotRow 0]])
              (f + 3) (l + 1) true (by omega) with h | ⟨k, fc, lbs, lc, flag, c',
                heq, hc', hmod, hft, hff, _⟩
          · exact Or.inl h
          · refine Or.inr ⟨k + 1, fc, lbs, lc, flag, c', ?_, hc', by omega,
              fun _ => Or.inr (by omega), ?_, by omega⟩
            · rw [heq]
              have h5 : cycTrace 5 k = cycTrace 1 k := cycTrace_congr k 5 1 (by omega)
              simp [cycTrace, featOf, List.append_assoc, h5]
            · intro h
              exact absurd (hff h).1 (by simp)
    · refine Or.inr ⟨0, f, labs, l, sw, c, ?_, hc, rfl, fun h => Or.inl h,
        fun h => ⟨h, by omega⟩, fun _ => Or.inr (Or.inr (by omega))⟩
      simp only [prepareLoop, if_neg hmax, cycTrace, List.append_nil]

/-- With a single worker on the sample data, the loop terminates whenever the
fuel exceeds the distance from the accumulated counts to the request: every
iteration either returns or consumes a sequence, and each consumed sequence
adds at least one sample to both counts. -/
theorem loopTerm (n : Nat) :
    ∀ (fuel c : Nat) (feats : List (List Nat))
      (labs : List (List (List (List Char)))) (f l : Nat) (sw : Bool),
      c ≤ 4 → n - max f l + 1 ≤ fuel →
      prepareLoop sampleSource.data sampleSource.sequences n 1 0
          feats labs f l sw c fuel ≠ none := by
  intro fuel
  induction fuel with
  | zero =>
    intro c feats labs f l sw _ hfuel
    omega
  | succ fuel ih =>
    intro c feats labs f l sw hc hfuel
    by_cases hmax : max f l < n
    · interval_cases c
      case _ =>
        by_cases hb : (feats ≠ [] ∨ labs ≠ []) ∧ max (f + 3) (l + 1) > n
        · rw [prepareLoop_break_step sampleSource.data sampleSource.sequences
            n 1 0 feats labs f l sw 0 fuel 0
            { features := [560, 0, 0], labels := some [oneHotRow 0] } [oneHotRow 0]
            hmax (by decide) (by decide) (by decide) (by decide) rfl hb.1 hb.2]
          simp
        · rw [prepareLoop_consume_step sampleSource.data sampleSource.sequences
            n 1 0 feats labs f l sw 0 fuel 0
            { features := [560, 0, 0], labels := some [oneHotRow 0] } [oneHotRow 0]
            hmax (by decide) (by decide) (by decide) (by decide) rfl hb]
          exact ih 1 (feats ++ [[560, 0, 0]]) (labs ++ [[oneHotRow 0]])
            (f + 3) (l + 1) sw (by omega) (by omega)
      case _ =>
        by_cases hb : (feats ≠ [] ∨ labs ≠ []) ∧ max (f + 4) (l + 1) > n
        · rw [prepareLoop_break_step sampleSource.data sampleSource.sequences
            n 1 0 feats labs f l sw 1 fuel 1
            { features := [560, 0, 0, 424], labels := some [oneHotRow 1] } [oneHotRow 1]
            hmax (by decide) (by decide) (by decide) (by decide) rfl hb.1 hb.2]
          simp
        · rw [prepareLoop_consume_step sampleSource.data sampleSource.sequences
            n 1 0 feats labs f l sw 1 fuel 1
            { features := [560, 0, 0, 424], labels := some [oneHotRow 1] } [oneHotRow 1]
            hmax (by decide) (by decide) (by decide) (by decide) rfl hb]
          exact ih 2 (feats ++ [[560, 0, 0, 424]]) (labs ++ [[oneHotRow 1]])
            (f + 4) (l + 1) sw (by omega) (by omega)
      case _ =>
        by_cases hb : (feats ≠ [] ∨ labs ≠ []) ∧ max (f + 3) (l + 1) > n
        · rw [prepareLoop_break_step sampleSource.data sampleSource.sequences
            n 1 0 feats labs f l sw 2 fuel 2
            { features := [160, 5, 6], labels := some [oneHotRow 2] } [oneHotRow 2]
            hmax (by decide) (by decide) (by decide) (by decide) rfl hb.1 hb.2]
          simp
        · rw [prepareLoop_consume_step sampleSource.data sampleSource.sequences
            n 1 0 feats labs f l sw 2 fuel 2
            { features := [160, 5, 6], labels := some [oneHotRow 2] } [oneHotRow 2]
            hmax (by decide) (by decide) (by decide) (by decide) rfl hb]
          exact ih 3 (feats ++ [[160, 5, 6]]) (labs ++ [[oneHotRow 2]])
            (f + 3) (l + 1) sw (by omega) (by omega)
      case _ =>
        by_cases hb : (feats ≠ [] ∨ labs ≠ []) ∧ max (f + 4) (l + 1) > n
        · rw [prepareLoop_break_step sampleSource.data sampleSource.sequences
            n 1 0 feats labs f l sw 3 fuel 3
            { features := [460, 3, 3, 425], labels := some [oneHotRow 3] } [oneHotRow 3]
            hmax (by decide) (by decide) (by decide) (by decide) rfl hb.1 hb.2]
          simp
        · rw [prepareLoop_consume_step sampleSource.data sampleSource.sequences
            n 1 0 feats labs f l sw 3 fuel 3
            { features := [460, 3, 3, 425], labels := some [oneHotRow 3] } [oneHotRow 3]
            hmax (by decide) (by decide) (by decide) (by decide) rfl hb]
          exact ih 4 (feats ++ [[460, 3, 3, 425]]) (labs ++ [[oneHotRow 3]])
            (f + 4) (l + 1) sw (by omega) (by omega)
      case _ =>
        have hwrap : prepareLoop sampleSource.data sampleSource.sequences n 1 0
              feats labs f l sw 4 (fuel + 1)
            = prepareLoop sampleSource.data sampleSource.sequences n 1 0
              feats labs f l true 0 (fuel + 1) :=
          prepareLoop_wrap_step sampleSource.data sampleSource.sequences
            n 1 0 feats labs f l sw fuel hmax (by decide)
        rw [hwrap]
        by_cases hb : (feats ≠ [] ∨ labs ≠ []) ∧ max (f + 3) (l + 1) > n
        · rw [prepareLoop_break_step sampleSource.data sampleSource.sequences
            n 1 0 feats labs f l true 0 fuel 0
            { features := [560, 0, 0], labels := some [oneHotRow 0] } [oneHotRow 0]
            hmax (by decide) (by decide) (by decide) (by decide) rfl hb.1 hb.2]
          simp
        · rw [prepareLoop_consume_step sampleSource.data sampleSource.sequences
            n 1 0 feats labs f l true 0 fuel 0
            { features := [560, 0, 0], labels := some [oneHotRow 0] } [oneHotRow 0]
            hmax (by decide) (by decide) (by decide) (by decide) rfl hb]
          exact ih 1 (feats ++ [[560, 0, 0]]) (labs ++ [[oneHotRow 0]])
            (f + 3) (l + 1) true (by omega) (by omega)
    · simp only [prepareLoop, if_neg hmax]
      simp

/-- Composition over calls: starting anywhere in the sweep with a single
worker, repeatedly calling `next_minibatch` until the sweep flag is observed
returns consecutive sequences of the sample data in cyclic ascending order,
and the walk reaches at least the end of the sweep. -/
theorem runCyc (n : Nat) (hn : 0 < n) :
    ∀ (m c : Nat), c ≤ 4 → 5 ≤ m + c →
      ∃ K, 1 ≤ K ∧ 4 ≤ c + K ∧
        runUntilSweep { sampleSource with next_seq_idx := c } n 1 0 (n + 2) m
          = some (cycTrace c K) := by
  intro m
  induction m with
  | zero =>
    intro c hc h5
    omega
  | succ m ih =>
    intro c hc h5
    have hterm := loopTerm n (n + 2) c [] [] 0 0 false hc (by omega)
    rcases loopTrace n (n + 2) c [] [] 0 0 false hc with hnone |
      ⟨k, fc, lbs, lc, flag, c', heq, hc', hmod, hft, hff, hk0⟩
    · exact absurd hnone hterm
    · have hk1 : 1 ≤ k := by
        rcases Nat.eq_zero_or_pos k with h0 | h
        · rcases hk0 h0 with h | h | h
          · simp at h
          · simp at h
          · omega
        · exact h
      rw [List.nil_append] at heq
      cases flag with
      | true =>
        refine ⟨k, hk1, ?_, ?_⟩
        · rcases hft rfl with h | h
          · exact absurd h (by simp)
          · exact h
        · simp only [runUntilSweep, next_minibatch, prepare_nextbatch]
          rw [heq]
          simp
      | false =>
        obtain ⟨-, hc'eq⟩ := hff rfl
        obtain ⟨K', hK1, hK4, hrun⟩ := ih c' hc' (by omega)
        refine ⟨k + K', by omega, by omega, ?_⟩
        simp only [runUntilSweep, next_minibatch, prepare_nextbatch]
        rw [heq]
        simp only [Bool.false_eq_true, if_false]
        rw [hrun, hc'eq]
        show some (cycTrace c k ++ cycTrace (c + k) K') = some (cycTrace c (k + K'))
        rw [cycTrace_append]

/-- With two workers and rank 1 on the sample data, the cursor stands on
sequence 0, which belongs to worker 0: the loop skips it without ever
advancing, so the call makes no progress no matter how much fuel it gets. -/
theorem sample_rank1_diverges (n : Nat) (hn : 0 < n) :
    ∀ fuel, prepareLoop sampleSource.data sampleSource.sequences n 2 1
      [] [] 0 0 false 0 fuel = none := by
  intro fuel
  induction fuel with
  | zero => rfl
  | succ k ih =>
    rw [prepareLoop_skip_step sampleSource.data sampleSource.sequences n 2 1
      [] [] 0 0 false 0 k 0 (by simpa using hn) (by decide) (by decide) (by decide)]
    exact ih

/-- C1.  The claim says a sequence of another worker is skipped with the
Cursor still advanced past it.  The code does skip it without adding it to
the batch, but the `continue` bypasses the cursor increment: the iteration
leaves every piece of state unchanged (first conjunct), so on the sample
data a rank-1 call with two workers never returns, for any amount of fuel
(second conjunct).  The cursor does not move in lock-step over skipped
sequences; it does not move at all. -/
theorem c1_skipped_sequence_stalls_cursor :
    (∀ (data : List (Nat × SeqRecord)) (seqs : List Nat) (n w r : Nat)
       (feats : List (List Nat)) (labs : List (List (List (List Char))))
       (f l : Nat) (sw : Bool) (idx fuel sid : Nat),
       max f l < n → idx ≠ seqs.length → lookupSeqId seqs idx = some sid →
       sid % w ≠ r →
       prepareLoop data seqs n w r feats labs f l sw idx (fuel + 1)
         = prepareLoop data seqs n w r feats labs f l sw idx fuel) ∧
    (∀ fuel, next_minibatch sampleSource 5 2 1 fuel = none) := by
  constructor
  · intro data seqs n w r feats labs f l sw idx fuel sid hmax hidx hlook hskip
    exact prepareLoop_skip_step data seqs n w r feats labs f l sw idx fuel sid
      hmax hidx hlook hskip
  · intro fuel
    simp [next_minibatch, prepare_nextbatch,
      show sampleSource.next_seq_idx = 0 from rfl,
      sample_rank1_diverges 5 (by decide) fuel]

/-- Witness for `c1_skipped_sequence_stalls_cursor`: concrete skipped
iteration on the sample data (worker 1 of 2 standing on sequence 0) and the
resulting divergence at fuel 3. -/
theorem c1_skipped_sequence_stalls_cursor_witness :
    prepareLoop sampleSource.data sampleSource.sequences 5 2 1
        [] [] 0 0 false 0 4
      = prepareLoop sampleSource.data sampleSource.sequences 5 2 1
        [] [] 0 0 false 0 3 ∧
    next_minibatch sampleSource 5 2 1 3 = none := by
  exact ⟨c1_skipped_sequence_stalls_cursor.1 sampleSource.data
      sampleSource.sequences 5 2 1 [] [] 0 0 false 0 3 0
      (by decide) (by decide) (by decide) (by decide),
    c1_skipped_sequence_stalls_cursor.2 3⟩

/-- C2.  The claim promises termination with a non-empty batch whenever
`requested_sample_count > 0`, `0 ≤ worker_rank < worker_count` and the index
is non-empty.  On the (non-empty, four-sequence) sample data the call with
`requested_sample_count = 1`, two workers, rank 1 satisfies every
precondition yet never returns: the first sequence belongs to worker 0 and
the skip path never advances the cursor, so the loop spins forever (`none`
for every fuel bound). -/
theorem c2_call_never_returns_for_second_worker :
    ∀ fuel, next_minibatch sampleSource 1 2 1 fuel = none := by
  intro fuel
  simp [next_minibatch, prepare_nextbatch,
    show sampleSource.next_seq_idx = 0 from rfl,
    sample_rank1_diverges 1 (by decide) fuel]

/-- C4 counterexample.  Restoring the out-of-range cursor value 99 on the
four-sequence sample instance does not fail and does not leave the Cursor
unchanged: the assignment goes through unconditionally. -/
theorem c4_counterexample_no_range_check :
    sampleSource.sequences.length = 4 ∧
    sampleSource.next_seq_idx = 0 ∧
    restore_from_checkpoint sampleSource { next_seq_idx := 99 }
      = { sampleSource with next_seq_idx := 99 } ∧
    (restore_from_checkpoint sampleSource { next_seq_idx := 99 }).next_seq_idx
      ≠ sampleSource.next_seq_idx := by
  refine ⟨rfl, rfl, rfl, by decide⟩

/-- C4 amended.  `restore_from_checkpoint` performs no validation at all: for
every snapshot value, in range or not, it assigns the value to the Cursor and
changes nothing else; it never fails. -/
theorem c4_restore_is_unconditional_assignment :
    ∀ (st : Source) (c : Checkpoint),
      restore_from_checkpoint st c = { st with next_seq_idx := c.next_seq_idx } ∧
      (restore_from_checkpoint st c).next_seq_idx = c.next_seq_idx := by
  intro st c
  exact ⟨rfl, rfl⟩

/-- C5 counterexample.  A well-formed ingestion text in which sequence 1 has
no label record parses fine, but the first `produce_batch` call that reaches
that sequence raises `KeyError` on `self.data[seq_id]['labels']` instead of
contributing zero label samples. -/
theorem c5_counterexample_label_less_sequence_fails :
    mkSource 10 1 noLabelText = some noLabelSource ∧
    next_minibatch noLabelSource 5 1 0 7
      = some (.keyError, { noLabelSource with next_seq_idx := 1 }) := by
  exact ⟨by decide, by decide⟩

/-- C5 amended.  Feature and label sample counts are indeed accumulated
separately (the features count by the length of the feature list, the labels
count by the number of stored label rows), but only for sequences that carry
a label record: a sequence whose record has no `'labels'` key makes the call
fail with `KeyError` rather than contributing zero label samples. -/
theorem c5_counts_separate_but_label_less_raises :
    (∀ (data : List (Nat × SeqRecord)) (seqs : List Nat) (n w r : Nat)
       (feats : List (List Nat)) (labs : List (List (List (List Char))))
       (f l : Nat) (sw : Bool) (idx fuel sid : Nat) (rec : SeqRecord)
       (lrows : List (List (List Char))),
       max f l < n → idx ≠ seqs.length → lookupSeqId seqs idx = some sid →
       sid % w = r → dictLookup data sid = some rec → rec.labels = some lrows →
       ¬((feats ≠ [] ∨ labs ≠ []) ∧
         max (f + rec.features.length) (l + lrows.length) > n) →
       prepareLoop data seqs n w r feats labs f l sw idx (fuel + 1)
         = prepareLoop data seqs n w r (feats ++ [rec.features]) (labs ++ [lrows])
             (f + rec.features.length) (l + lrows.length) sw (idx + 1) fuel) ∧
    (∀ (data : List (Nat × SeqRecord)) (seqs : List Nat) (n w r : Nat)
       (feats : List (List Nat)) (labs : List (List (List (List Char))))
       (f l : Nat) (sw : Bool) (idx fuel sid : Nat) (rec : SeqRecord),
       max f l < n → idx ≠ seqs.length → lookupSeqId seqs idx = some sid →
       sid % w = r → dictLookup data sid = some rec → rec.labels = none →
       prepareLoop data seqs n w r feats labs f l sw idx (fuel + 1)
         = some (.keyError, idx)) := by
  constructor
  · intro data seqs n w r feats labs f l sw idx fuel sid rec lrows
      hmax hidx hlook helig hdict hlab hnb
    exact prepareLoop_consume_step data seqs n w r feats labs f l sw idx fuel
      sid rec lrows hmax hidx hlook helig hdict hlab hnb
  · intro data seqs n w r feats labs f l sw idx fuel sid rec
      hmax hidx hlook helig hdict hlab
    exact prepareLoop_keyerror_step data seqs n w r feats labs f l sw idx fuel
      sid rec hmax hidx hlook helig hdict hlab

/-- Witness for `c5_counts_separate_but_label_less_raises`: on `noLabelSource`
the labelled sequence 0 is consumed with its one label row counted apart from
its one feature entry, and the label-less sequence 1 then raises `KeyError`. -/
theorem c5_counts_separate_but_label_less_raises_witness :
    prepareLoop noLabelSource.data noLabelSource.sequences 5 1 0
        [] [] 0 0 false 0 7
      = prepareLoop noLabelSource.data noLabelSource.sequences 5 1 0
        [[1]] [[[['1']]]] 1 1 false 1 6 ∧
    prepareLoop noLabelSource.data noLabelSource.sequences 5 1 0
        [[1]] [[[['1']]]] 1 1 false 1 7
      = some (.keyError, 1) := by
  constructor
  · exact c5_counts_separate_but_label_less_raises.1 noLabelSource.data
      noLabelSource.sequences 5 1 0 [] [] 0 0 false 0 6 0
      { features := [1], labels := some [[['1']]] } [[['1']]]
      (by decide) (by decide) (by decide) (by decide) (by decide) (by decide)
      (by decide)
  · exact c5_counts_separate_but_label_less_raises.2 noLabelSource.data
      noLabelSource.sequences 5 1 0 [[1]] [[[['1']]]] 1 1 false 1 6 1
      { features := [2], labels := none }
      (by decide) (by decide) (by decide) (by decide) (by decide) (by decide)

/-- C6.  On the sample dataset with `worker_count = 1`, `worker_rank = 0` and
`requested_sample_count = 7`, the first call after construction returns
exactly sequences 0 and 1 (feature payloads of lengths 3 and 4, feature
sample count 7), with the sweep-boundary flag false, and leaves the Cursor
at position 2. -/
theorem c6_first_call_on_sample_data :
    next_minibatch sampleSource 7 1 0 9
      = some (.ok
          { fsi := sampleSource.fsi
            features := { data := [[560, 0, 0], [560, 0, 0, 424]],
                          num_sequences := 2, num_samples := 7,
                          sweep_end := false }
            lsi := sampleSource.lsi
            labels := { data := [[oneHotRow 0], [oneHotRow 1]],
                        num_sequences := 2, num_samples := 2,
                        sweep_end := false } },
          { sampleSource with next_seq_idx := 2 }) := by
  decide

/-- C7.  Accumulation stops, without advancing past the offending sequence,
as soon as admitting the next eligible sequence would push either count above
the request, provided the batch is non-empty (first conjunct); when the batch
is still empty the oversized sequence is admitted unconditionally — the
overflow test is short-circuited by `features or labels` (second conjunct);
in particular on the sample data with `requested_sample_count = 1` the call
returns one sequence with three feature samples (third conjunct). -/
theorem c7_overflow_stops_batch_except_when_empty :
    (∀ (data : List (Nat × SeqRecord)) (seqs : List Nat) (n w r : Nat)
       (feats : List (List Nat)) (labs : List (List (List (List Char))))
       (f l : Nat) (sw : Bool) (idx fuel sid : Nat) (rec : SeqRecord)
       (lrows : List (List (List Char))),
       max f l < n → idx ≠ seqs.length → lookupSeqId seqs idx = some sid →
       sid % w = r → dictLookup data sid = some rec → rec.labels = some lrows →
       feats ≠ [] ∨ labs ≠ [] →
       max (f + rec.features.length) (l + lrows.length) > n →
       prepareLoop data seqs n w r feats labs f l sw idx (fuel + 1)
         = some (.ok feats f labs l sw, idx)) ∧
    (∀ (data : List (Nat × SeqRecord)) (seqs : List Nat) (n w r : Nat)
       (f l : Nat) (sw : Bool) (idx fuel sid : Nat) (rec : SeqRecord)
       (lrows : List (List (List Char))),
       max f l < n → idx ≠ seqs.length → lookupSeqId seqs idx = some sid →
       sid % w = r → dictLookup data sid = some rec → rec.labels = some lrows →
       prepareLoop data seqs n w r [] [] f l sw idx (fuel + 1)
         = prepareLoop data seqs n w r [rec.features] [lrows]
             (f + rec.features.length) (l + lrows.length) sw (idx + 1) fuel) ∧
    next_minibatch sampleSource 1 1 0 9
      = some (.ok
          { fsi := sampleSource.fsi
            features := { data := [[560, 0, 0]], num_sequences := 1,
                          num_samples := 3, sweep_end := false }
            lsi := sampleSource.lsi
            labels := { data := [[oneHotRow 0]], num_sequences := 1,
                        num_samples := 1, sweep_end := false } },
          { sampleSource with next_seq_idx := 1 }) := by
  refine ⟨?_, ?_, by decide⟩
  · intro data seqs n w r feats labs f l sw idx fuel sid rec lrows
      hmax hidx hlook helig hdict hlab hne hover
    exact prepareLoop_break_step data seqs n w r feats labs f l sw idx fuel
      sid rec lrows hmax hidx hlook helig hdict hlab hne hover
  · intro data seqs n w r f l sw idx fuel sid rec lrows
      hmax hidx hlook helig hdict hlab
    have hnb : ¬((([] : List (List Nat)) ≠ [] ∨
        ([] : List (List (List (List Char)))) ≠ []) ∧
        max (f + rec.features.length) (l + lrows.length) > n) := by
      simp
    simpa using prepareLoop_consume_step data seqs n w r [] [] f l sw idx fuel
      sid rec lrows hmax hidx hlook helig hdict hlab hnb

/-- Witness for `c7_overflow_stops_batch_except_when_empty`: on the sample
data, with sequence 0 already in the batch (counts 3 and 1) and a request of
4, sequence 1 would overflow and the loop breaks at cursor 1; from an empty
batch with a request of 1, oversized sequence 0 is admitted anyway. -/
theorem c7_overflow_stops_batch_except_when_empty_witness :
    prepareLoop sampleSource.data sampleSource.sequences 4 1 0
        [[560, 0, 0]] [[oneHotRow 0]] 3 1 false 1 8
      = some (.ok [[560, 0, 0]] 3 [[oneHotRow 0]] 1 false, 1) ∧
    prepareLoop sampleSource.data sampleSource.sequences 1 1 0
        [] [] 0 0 false 0 8
      = prepareLoop sampleSource.data sampleSource.sequences 1 1 0
        [[560, 0, 0]] [[oneHotRow 0]] 3 1 false 1 7 := by
  constructor
  · exact c7_overflow_stops_batch_except_when_empty.1 sampleSource.data
      sampleSource.sequences 4 1 0 [[560, 0, 0]] [[oneHotRow 0]] 3 1 false 1 7 1
      { features := [560, 0, 0, 424], labels := some [oneHotRow 1] } [oneHotRow 1]
      (by decide) (by decide) (by decide) (by decide) (by decide) (by decide)
      (by decide) (by decide)
  · exact c7_overflow_stops_batch_except_when_empty.2.1 sampleSource.data
      sampleSource.sequences 1 1 0 0 0 false 0 7 0
      { features := [560, 0, 0], labels := some [oneHotRow 0] } [oneHotRow 0]
      (by decide) (by decide) (by decide) (by decide) (by decide) (by decide)

/-- C8.  `get_checkpoint_state` returns exactly the Cursor (it reads and
mutates nothing else), restoring a just-captured snapshot is the identity on
the instance state, and the following `next_minibatch` call is therefore
indistinguishable from one made without the capture/restore round trip. -/
theorem c8_checkpoint_roundtrip_noop :
    ∀ (st : Source) (n w r fuel : Nat),
      get_checkpoint_state st = { next_seq_idx := st.next_seq_idx } ∧
      restore_from_checkpoint st (get_checkpoint_state st) = st ∧
      next_minibatch (restore_from_checkpoint st (get_checkpoint_state st))
          n w r fuel
        = next_minibatch st n w r fuel := by
  intro st n w r fuel
  exact ⟨rfl, rfl, rfl⟩

/-- C9.  Whatever a `next_minibatch` call returns (a batch, an `IndexError`
or a `KeyError`), the state it leaves behind differs from the input state at
most in the Cursor: the data dict, the sorted identifier list, both stream
descriptors and both dimensions are untouched. -/
theorem c9_call_mutates_only_cursor :
    ∀ (st : Source) (n w r fuel : Nat) (out : MBResult) (st' : Source),
      next_minibatch st n w r fuel = some (out, st') →
      st'.f_dim = st.f_dim ∧ st'.l_dim = st.l_dim ∧ st'.data = st.data ∧
      st'.sequences = st.sequences ∧ st'.fsi = st.fsi ∧ st'.lsi = st.lsi := by
  intro st n w r fuel out st' h
  simp only [next_minibatch, prepare_nextbatch] at h
  cases hl : prepareLoop st.data st.sequences n w r [] [] 0 0 false
      st.next_seq_idx fuel with
  | none => rw [hl] at h; exact absurd h (by simp)
  | some p =>
    rw [hl] at h
    obtain ⟨o, i⟩ := p
    cases o with
    | ok fs fc ls lc sw =>
      simp only [Option.some.injEq, Prod.mk.injEq] at h
      rw [← h.2]
      exact ⟨rfl, rfl, rfl, rfl, rfl, rfl⟩
    | indexError =>
      simp only [Option.some.injEq, Prod.mk.injEq] at h
      rw [← h.2]
      exact ⟨rfl, rfl, rfl, rfl, rfl, rfl⟩
    | keyError =>
      simp only [Option.some.injEq, Prod.mk.injEq] at h
      rw [← h.2]
      exact ⟨rfl, rfl, rfl, rfl, rfl, rfl⟩

/-- Witness for `c9_call_mutates_only_cursor`: the concrete first call on the
sample data leaves everything but the Cursor unchanged. -/
theorem c9_call_mutates_only_cursor_witness :
    ({ sampleSource with next_seq_idx := 2 } : Source).data = sampleSource.data ∧
    ({ sampleSource with next_seq_idx := 2 } : Source).sequences
      = sampleSource.sequences := by
  have h := c9_call_mutates_only_cursor sampleSource 7 1 0 9
    (.ok { fsi := sampleSource.fsi
           features := { data := [[560, 0, 0], [560, 0, 0, 424]],
                         num_sequences := 2, num_samples := 7,
                         sweep_end := false }
           lsi := sampleSource.lsi
           labels := { data := [[oneHotRow 0], [oneHotRow 1]],
                       num_sequences := 2, num_samples := 2,
                       sweep_end := false } })
    { sampleSource with next_seq_idx := 2 } (by decide)
  exact ⟨h.2.2.1, h.2.2.2.1⟩

/-- C10.  The selection on line 307 is the double indexing
`self.sequences[self.sequences[next_seq_idx]]`.  When the sorted identifier
list is exactly `0..n-1` the double indexing collapses to the cursor-th
sorted identifier (first conjunct).  When it is not, it misbehaves: with
identifiers `[1, 2, 3]` the cursor position 0 indicates identifier 1 but the
lookup selects 2 (second and third conjuncts), and with identifiers `[0, 5]`
the inner value 5 exceeds the list length and the lookup goes out of bounds
(fourth conjunct). -/
theorem c10_double_indexing_of_sequences :
    (∀ (n i : Nat), i < n → lookupSeqId (List.range n) i = some i) ∧
    lookupSeqId [1, 2, 3] 0 = some 2 ∧
    [1, 2, 3].get? 0 = some 1 ∧
    lookupSeqId [0, 5] 1 = none := by
  refine ⟨?_, by decide, by decide, by decide⟩
  intro n i hi
  simp only [lookupSeqId, List.get?_eq_getElem?, List.getElem?_range hi]

/-- Witness for `c10_double_indexing_of_sequences`: the identity behaviour on
the list `0..3` at cursor 2. -/
theorem c10_double_indexing_of_sequences_witness :
    lookupSeqId (List.range 4) 2 = some 2 := by
  exact c10_double_indexing_of_sequences.1 4 2 (by decide)

/-- C3 counterexample.  With `requested_sample_count = 7` on the sample data
the calls up to and including the first sweep-flagged call return the feature
payloads of sequences 0, 1, 2, 3, 0, 1: the flagged call wraps into the new
sweep and re-returns sequences 0 and 1, so sequence 0's payload occurs twice
and the sequence identifiers are not returned exactly once. -/
theorem c3_counterexample_sequences_repeat :
    runUntilSweep sampleSource 7 1 0 9 6
      = some [featOf 0, featOf 1, featOf 2, featOf 3, featOf 0, featOf 1] ∧
    [featOf 0, featOf 1, featOf 2, featOf 3, featOf 0, featOf 1].count (featOf 0)
      = 2 := by
  exact ⟨by decide, by decide⟩

/-- C3 amended.  For every `requested_sample_count > 0`, repeatedly calling
`produce_batch` from Cursor 0 with a single worker until the first call whose
sweep flag is true returns the sample sequences in ascending cyclic order
starting from identifier 0 and covers the whole sweep: the first four
sequences returned are exactly 0, 1, 2, 3, once each, in ascending sorted
order, but the flagged call may wrap past the boundary and return leading
sequences of the next sweep again, so "exactly once" holds only for the
first `number_of_sequences` returned sequences, not for all of them. -/
theorem c3_sweep_returns_all_in_cyclic_order :
    ∀ n : Nat, 0 < n →
      ∃ K, 4 ≤ K ∧
        runUntilSweep sampleSource n 1 0 (n + 2) 6 = some (cycTrace 0 K) ∧
        (cycTrace 0 K).take 4 = [featOf 0, featOf 1, featOf 2, featOf 3] := by
  intro n hn
  obtain ⟨K, hK1, hK4, hrun⟩ := runCyc n hn 6 0 (by decide) (by decide)
  have hst : ({ sampleSource with next_seq_idx := 0 } : Source) = sampleSource := rfl
  rw [hst] at hrun
  refine ⟨K, by omega, hrun, ?_⟩
  obtain ⟨k, rfl⟩ : ∃ k, K = k + 4 := ⟨K - 4, by omega⟩
  rfl

/-- Witness for `c3_sweep_returns_all_in_cyclic_order` at
`requested_sample_count = 7`. -/
theorem c3_sweep_returns_all_in_cyclic_order_witness :
    (0 : Nat) < 7 ∧
    ∃ K, 4 ≤ K ∧
      runUntilSweep sampleSource 7 1 0 9 6 = some (cycTrace 0 K) ∧
      (cycTrace 0 K).take 4 = [featOf 0, featOf 1, featOf 2, featOf 3] := by
  exact ⟨by decide, c3_sweep_returns_all_in_cyclic_order 7 (by decide)⟩

end MinibatchSource
